import Mathlib

/-!
Verification of the NewsBite ingestion-and-enrichment pipeline.

The definitions below are shallow embeddings of the Python services in
`Backend/app/services` (crawler, scheduler, AI enrichment, personalization,
content generation).  Machine floats are modelled as rationals, database
tables as lists of records, and Python dicts as insertion-ordered
association lists.  Python string primitives (`strip`, `lower`, `split`,
`join`, lexicographic comparison) are modelled by executable functions on
`List Char`, covering the ASCII/Hangul alphabet the pipeline actually
handles.  Python's stable `sorted(..., reverse=True)` is modelled by
`List.insertionSort` with a non-strict "key greater or equal" relation,
which produces the same output as any stable descending sort.
-/

namespace NewsBite

/-- Model of Python `str.strip()` on the character list: drop whitespace
from both ends. -/
def stripChars (cs : List Char) : List Char :=
  ((cs.dropWhile Char.isWhitespace).reverse.dropWhile Char.isWhitespace).reverse

/-- Model of Python `str.strip()`. -/
def pyStrip (s : String) : String := String.mk (stripChars s.data)

/-- Model of Python `str.lower()` (ASCII case folding; Hangul has no case). -/
def pyLower (s : String) : String := String.mk (s.data.map Char.toLower)

/-- Model of Python `len(s)`: number of code points. -/
def pyLen (s : String) : Nat := s.data.length

/-- Model of Python `s[:n]`: first `n` code points. -/
def pyTake (s : String) (n : Nat) : String := String.mk (s.data.take n)

/-- Model of Python `s.split(sep)` for a one-character separator. -/
def splitOnChar (sep : Char) (cs : List Char) : List (List Char) :=
  cs.foldr
    (fun c acc =>
      match acc with
      | [] => [[c]]
      | a :: rest => if c = sep then [] :: a :: rest else (c :: a) :: rest)
    [[]]

/-- Model of Python `s.split(sep)` returning strings. -/
def pySplit (s : String) (sep : Char) : List String :=
  (splitOnChar sep s.data).map String.mk

/-- Model of Python `sep.join(parts)`. -/
def pyJoin (sep : String) (parts : List String) : String :=
  String.mk (List.intercalate sep.data (parts.map String.data))

/-- Earliest index at which `sub` occurs in the character list, if any
(scans left to right, mirroring `re.search` and Python `in`). -/
def firstOccurrence (sub : List Char) : List Char → Option Nat
  | [] => if sub = [] then some 0 else none
  | c :: cs =>
    if sub.isPrefixOf (c :: cs) then some 0
    else (firstOccurrence sub cs).map (· + 1)

/-- Model of Python `sub in s`: substring containment on characters. -/
def pyContains (s sub : String) : Bool :=
  (firstOccurrence sub.data s.data).isSome

/-- Model of Python lexicographic string comparison `a <= b` by code
point. -/
def listLexLe : List Char → List Char → Bool
  | [], _ => true
  | _ :: _, [] => false
  | a :: as, b :: bs =>
    if a.toNat < b.toNat then true
    else if b.toNat < a.toNat then false
    else listLexLe as bs

/-- Python `a <= b` on strings. -/
def pyStrLe (a b : String) : Bool := listLexLe a.data b.data

/-- Normalized title key used by the scheduler's batch deduplication:
`news_item.title.lower().strip()` in `NewsScheduler._remove_duplicates`. -/
def normTitle (s : String) : String := pyStrip (pyLower s)

/-- In-memory crawled item (`NewsItem` dataclass in `news_crawler.py`);
only the fields the deduplication and storage logic reads are modelled. -/
structure NewsItem where
  title : String
  content : String
  url : String
  source : String
  category : String
deriving Repr, DecidableEq

/-- Embedding of `NewsScheduler._remove_duplicates` (scheduler.py lines
137-149): walk the batch keeping a set of already-seen normalized titles;
an item whose normalized title was already seen is dropped, otherwise it is
kept and its normalized title is recorded.  The URL is never consulted. -/
def removeDuplicates : List NewsItem → List String → List NewsItem
  | [], _ => []
  | x :: xs, seen =>
    let key := normTitle x.title
    if key ∈ seen then removeDuplicates xs seen
    else x :: removeDuplicates xs (key :: seen)

/-- Stored news row as used by `NewsCrawler.save_news_to_db` (crawler.py):
the duplicate check reads only `source_url`; `title` is stored but never
compared there. -/
structure StoredNews where
  title : String
  sourceName : String
  sourceUrl : String
  isProcessed : Bool
  isActive : Bool
deriving Repr, DecidableEq

/-- Crawled item dict as passed to `save_news_to_db` (crawler.py). -/
structure CrawlItem where
  title : String
  sourceName : String
  sourceUrl : String
deriving Repr, DecidableEq

/-- Row constructed by `save_news_to_db` for a fresh item
(`News(... is_processed=False)`). -/
def mkStoredNews (item : CrawlItem) : StoredNews :=
  { title := item.title
    sourceName := item.sourceName
    sourceUrl := item.sourceUrl
    isProcessed := false
    isActive := true }

/-- Embedding of `NewsCrawler.save_news_to_db` (crawler.py lines 305-352):
for each item, skip it when some stored row has the same `source_url`
(the only duplicate check performed), otherwise insert a fresh unprocessed
row and count it.  Returns the updated table and the saved count. -/
def saveNewsToDb (newsData : List CrawlItem) (db : List StoredNews) :
    List StoredNews × Nat :=
  newsData.foldl
    (fun st item =>
      if st.1.any (fun n => n.sourceUrl == item.sourceUrl) then st
      else (st.1 ++ [mkStoredNews item], st.2 + 1))
    (db, 0)

/-- Embedding of `NewsService.create_news_article` (news_service.py lines
23-72): the duplicate check is `News.title == news_item.title` — exact,
unnormalized title equality; the URL is never compared.  Returns the
updated table and whether a new row was inserted. -/
def createNewsArticle (item : NewsItem) (db : List StoredNews) :
    List StoredNews × Bool :=
  if db.any (fun n => n.title == item.title) then (db, false)
  else
    (db ++ [{ title := item.title
              sourceName := item.source
              sourceUrl := item.url
              isProcessed := false
              isActive := true }], true)

/-- Generic model of `re.search`: try the matcher at every start position,
left to right, and return the first success. -/
def searchWith {α : Type} (m : List Char → Option α) : List Char → Option α
  | [] => m []
  | c :: cs =>
    match m (c :: cs) with
    | some r => some r
    | none => searchWith m cs

/-- Digit string to natural number. -/
def digitsToNat (ds : List Char) : Nat :=
  ds.foldl (fun n c => n * 10 + (c.toNat - 48)) 0

/-- Match of the regex `\d*\.?\d+` at the head of the input (greedy with
backtracking, as `re` does): an integer part, an optional dot, and a
fraction; at least one digit overall, and a dot must be followed by a
digit.  Returns the matched characters. -/
def matchNumberAt (cs : List Char) : Option (List Char) :=
  let d1 := cs.takeWhile Char.isDigit
  let rest1 := cs.dropWhile Char.isDigit
  match rest1 with
  | '.' :: rest2 =>
    let d2 := rest2.takeWhile Char.isDigit
    if d2 ≠ [] then some (d1 ++ '.' :: d2)
    else if d1 ≠ [] then some d1 else none
  | _ => if d1 ≠ [] then some d1 else none

/-- Match of the capture group `[+-]?\d*\.?\d+` at the head. -/
def matchSignedNumberAt (cs : List Char) : Option (List Char) :=
  match cs with
  | '+' :: rest => (matchNumberAt rest).map (fun n => '+' :: n)
  | '-' :: rest => (matchNumberAt rest).map (fun n => '-' :: n)
  | _ => matchNumberAt cs

/-- Value of an unsigned numeric literal as a rational (the exact value
Python's `float(...)` denotes, floats modelled as rationals). -/
def numValueCore (cs : List Char) : ℚ :=
  let intPart := cs.takeWhile Char.isDigit
  let rest := cs.dropWhile Char.isDigit
  match rest with
  | '.' :: frac =>
    (digitsToNat intPart : ℚ) + (digitsToNat frac : ℚ) / ((10 : ℚ) ^ frac.length)
  | _ => (digitsToNat intPart : ℚ)

/-- Value of a signed numeric literal. -/
def numValue (cs : List Char) : ℚ :=
  match cs with
  | '+' :: rest => numValueCore rest
  | '-' :: rest => - numValueCore rest
  | _ => numValueCore cs

/-- Matcher for `점수:\s*([+-]?\d*\.?\d+)` at one position
(`AIProcessor.analyze_sentiment`): the literal, then whitespace, then the
signed-number capture. -/
def matchScoreAt (cs : List Char) : Option (List Char) :=
  if "점수:".data.isPrefixOf cs then
    matchSignedNumberAt
      ((cs.drop "점수:".data.length).dropWhile Char.isWhitespace)
  else none

/-- Matcher for `라벨:\s*(positive|negative|neutral)` at one position
(`AIProcessor.analyze_sentiment`); the alternatives are tried in the
pattern's order. -/
def matchLabelAt (cs : List Char) : Option String :=
  if "라벨:".data.isPrefixOf cs then
    let t := (cs.drop "라벨:".data.length).dropWhile Char.isWhitespace
    if "positive".data.isPrefixOf t then some "positive"
    else if "negative".data.isPrefixOf t then some "negative"
    else if "neutral".data.isPrefixOf t then some "neutral"
    else none
  else none

/-- Embedding of `AIProcessor.analyze_sentiment` (ai_processor.py lines
114-160).  `resp = none` models the provider call raising (the `except`
branch).  When both regexes match, the parsed score is clamped by
`max(-1.0, min(1.0, score))`; otherwise the default `(0.0, "neutral")` is
returned. -/
def analyzeSentiment (resp : Option String) : ℚ × String :=
  match resp with
  | none => (0, "neutral")
  | some r =>
    match searchWith matchScoreAt r.data, searchWith matchLabelAt r.data with
    | some num, some label => (max (-1) (min 1 (numValue num)), label)
    | _, _ => (0, "neutral")

/-- Python `float(text)` on an already-stripped string, restricted to the
sign/digits/fraction grammar (exponents and `inf`/`nan` are not produced
by the prompts being parsed); `none` models `ValueError`. -/
def pyFloat (s : String) : Option ℚ :=
  let core : List Char → Option ℚ := fun cs =>
    let d1 := cs.takeWhile Char.isDigit
    let rest1 := cs.dropWhile Char.isDigit
    match rest1 with
    | [] => if d1 = [] then none else some (digitsToNat d1 : ℚ)
    | '.' :: frac =>
      if frac.all Char.isDigit && (d1 ≠ [] || frac ≠ []) then
        some ((digitsToNat d1 : ℚ) + (digitsToNat frac : ℚ) / ((10 : ℚ) ^ frac.length))
      else none
    | _ => none
  match s.data with
  | '+' :: rest => core rest
  | '-' :: rest => (core rest).map Neg.neg
  | cs => core cs

/-- Embedding of `AIService.analyze_sentiment` (ai_service.py lines
140-196), the parallel sentiment implementation.  `response` is the raw
provider text ("" when every provider failed).  The expected format is
`분류|점수`; the parsed score is returned UNCLAMPED, and the default on any
parse failure is `("중립적", 0.5)`.  The returned pair is (label, score). -/
def aiServiceAnalyzeSentiment (response : String) : String × ℚ :=
  if response ≠ "" && pyContains response "|" then
    match pySplit (pyStrip response) '|' with
    | p0 :: p1 :: _ =>
      match pyFloat (pyStrip p1) with
      | some score => (pyStrip p0, score)
      | none => ("중립적", 1/2)
    | _ => ("중립적", 1/2)
  else ("중립적", 1/2)

/-- Matcher for `논쟁성:\s*(true|false)` at one position
(`AIProcessor.detect_controversy`). -/
def matchControversyAt (cs : List Char) : Option String :=
  if "논쟁성:".data.isPrefixOf cs then
    let t := (cs.drop "논쟁성:".data.length).dropWhile Char.isWhitespace
    if "true".data.isPrefixOf t then some "true"
    else if "false".data.isPrefixOf t then some "false"
    else none
  else none

/-- Lazy capture for `(.+?)` followed by a lookahead `(?=stop|$)` under
`re.DOTALL`: the shortest non-empty prefix after which `stop` starts or
the input ends. -/
def captureUntil (stop : List Char) : List Char → List Char
  | [] => []
  | c :: rest =>
    if stop.isPrefixOf (c :: rest) then []
    else c :: captureUntil stop rest

/-- Matcher for `찬성 의견:\s*(.+?)(?=반대 의견:|$)` at one position
(`AIProcessor.detect_controversy`).  A whitespace-only remainder yields a
capture that strips to "" in the caller, which the code treats the same as
no match, so it is modelled as `none`. -/
def matchProsAt (cs : List Char) : Option (List Char) :=
  if "찬성 의견:".data.isPrefixOf cs then
    match (cs.drop "찬성 의견:".data.length).dropWhile Char.isWhitespace with
    | [] => none
    | c :: rest => some (c :: captureUntil "반대 의견:".data rest)
  else none

/-- Matcher for `반대 의견:\s*(.+?)$` at one position
(`AIProcessor.detect_controversy`): everything to the end of the input,
non-empty after the greedy whitespace. -/
def matchConsAt (cs : List Char) : Option (List Char) :=
  if "반대 의견:".data.isPrefixOf cs then
    match (cs.drop "반대 의견:".data.length).dropWhile Char.isWhitespace with
    | [] => none
    | c :: rest => some (c :: rest)
  else none

/-- Opinion text post-processing in `detect_controversy`: strip, then keep
only non-empty text different from the sentinel `없음`. -/
def opinionText (m : Option (List Char)) : Option String :=
  match m with
  | none => none
  | some t =>
    let s := pyStrip (String.mk t)
    if s ≠ "" && s ≠ "없음" then some s else none

/-- Embedding of `AIProcessor.detect_controversy` (ai_processor.py lines
162-222).  `resp = none` models the provider call raising (the `except`
branch returns `(False, None, None)`).  `is_controversial` defaults to
`False` when the boolean field does not parse, and the pros/cons summaries
are only ever filled when `is_controversial` is true. -/
def detectControversy (resp : Option String) :
    Bool × Option String × Option String :=
  match resp with
  | none => (false, none, none)
  | some r =>
    let cs := r.data
    let isContr :=
      match searchWith matchControversyAt cs with
      | some w => w == "true"
      | none => false
    let pros :=
      if isContr then opinionText (searchWith matchProsAt cs) else none
    let against :=
      if isContr then opinionText (searchWith matchConsAt cs) else none
    (isContr, pros, against)

/-- Character class of the token regex `[가-힣a-zA-Z0-9]+` in
`AIProcessor.extract_keywords`: Hangul syllables, Latin letters, digits. -/
def isWordChar (c : Char) : Bool :=
  ('가'.toNat ≤ c.toNat && c.toNat ≤ '힣'.toNat) ||
  ('a'.toNat ≤ c.toNat && c.toNat ≤ 'z'.toNat) ||
  ('A'.toNat ≤ c.toNat && c.toNat ≤ 'Z'.toNat) ||
  ('0'.toNat ≤ c.toNat && c.toNat ≤ '9'.toNat)

/-- Maximal-run tokenizer implementing `re.findall(r'[가-힣a-zA-Z0-9]+', text)`:
the accumulator holds the current run, reversed. -/
def tokenizeAux : List Char → List Char → List String
  | [], acc => if acc.isEmpty then [] else [String.mk acc.reverse]
  | c :: cs, acc =>
    if isWordChar c then tokenizeAux cs (c :: acc)
    else if acc.isEmpty then tokenizeAux cs []
    else String.mk acc.reverse :: tokenizeAux cs []

/-- All alphanumeric-run tokens of a text, in order. -/
def findWords (s : String) : List String := tokenizeAux s.data []

/-- The fixed Korean stop-word set of `AIProcessor.extract_keywords`. -/
def stopwords : List String :=
  ["이", "가", "을", "를", "에", "의", "는", "은", "도", "과", "와", "로", "으로",
   "있다", "있는", "하다", "한다", "된다", "되다", "것", "수", "때", "등",
   "그", "이런", "저런", "그런", "여러", "많은", "또한", "하지만", "그러나"]

/-- Stop-word and length filtering of `extract_keywords`:
`len(word) >= 2 and word not in stopwords`. -/
def filteredWords (s : String) : List String :=
  (findWords s).filter (fun w => 2 ≤ pyLen w && !stopwords.contains w)

/-- One step of the frequency dict `word_freq[word] = word_freq.get(word, 0) + 1`
on an insertion-ordered association list. -/
def bumpFreq : List (String × Nat) → String → List (String × Nat)
  | [], w => [(w, 1)]
  | (x, n) :: rest, w =>
    if x == w then (x, n + 1) :: rest else (x, n) :: bumpFreq rest w

/-- Frequency table of a word list, keys in first-occurrence order
(Python dict iteration order). -/
def wordFreq (ws : List String) : List (String × Nat) := ws.foldl bumpFreq []

/-- The sort relation of `sorted(word_freq.items(), key=lambda x: x[1],
reverse=True)`: count greater or equal (non-strict, so the stable sort
keeps first-occurrence order among ties, as Python's stable sort does). -/
def freqGe (p q : String × Nat) : Prop := q.2 ≤ p.2

instance : DecidableRel freqGe := fun p q => Nat.decLe q.2 p.2

instance : IsTotal (String × Nat) freqGe := ⟨fun p q => le_total q.2 p.2⟩

instance : IsTrans (String × Nat) freqGe := ⟨fun _ _ _ h h2 => le_trans h2 h⟩

/-- Frequency pairs of the filtered tokens, sorted by count descending
(stable). -/
def rankedKeywords (text : String) : List (String × Nat) :=
  List.insertionSort freqGe (wordFreq (filteredWords text))

/-- Embedding of `AIProcessor.extract_keywords` (ai_processor.py lines
224-263): tokenize, filter, count, rank by frequency descending, keep the
top `maxKeywords` (default 5) words. -/
def extractKeywords (text : String) (maxKeywords : Nat := 5) : List String :=
  ((rankedKeywords text).take maxKeywords).map Prod.fst

/-- The fixed company registry of `AIProcessor.__init__`. -/
def koreanCompanies : List String :=
  ["삼성전자", "SK하이닉스", "LG에너지솔루션", "삼성바이오로직스",
   "NAVER", "카카오", "셀트리온", "현대차", "기아", "포스코홀딩스",
   "LG화학", "SK이노베이션", "한국전력", "삼성물산", "LG전자",
   "한화솔루션", "SK", "현대모비스", "POSCO", "아모레퍼시픽"]

/-- Embedding of `AIProcessor.extract_companies`: substring match of each
registry name against the text, de-duplicated (`list(set(...))` modelled
as first-occurrence de-duplication). -/
def extractCompanies (text : String) : List String :=
  (koreanCompanies.filter (fun c => pyContains text c)).dedup

/-- Deterministic two-sentence fallback of `AIProcessor.summarize_news`
(exception branch): `'. '.join(content.split('.')[:2]) + '.'`. -/
def firstTwoSentences (content : String) : String :=
  pyJoin ". " ((pySplit content '.').take 2) ++ "."

/-- Embedding of `AIProcessor.summarize_news` (ai_processor.py lines
78-112): the provider response stripped on success, the two-sentence
fallback when the call raises (`resp = none`). -/
def summarizeNewsProcessor (content : String) (resp : Option String) : String :=
  match resp with
  | some r => pyStrip r
  | none => firstTwoSentences content

/-- AI processing result (`ProcessingResult` dataclass in
ai_processor.py). -/
structure ProcessingResult where
  summary : String
  sentimentScore : ℚ
  sentimentLabel : String
  keywords : List String
  isControversial : Bool
  prosSummary : Option String
  consSummary : Option String
  mentionedCompanies : List String
deriving Repr, DecidableEq

/-- Embedding of `AIProcessor.process_news` (ai_processor.py lines
313-366).  `ok = true` is the normal path combining the three provider
sub-results; `ok = false` is the `except` branch, which returns the
documented defaults (`is_controversial=False`, pros/cons omitted and hence
`None`). -/
def processNews (title content : String)
    (summaryResp sentimentResp controversyResp : Option String)
    (ok : Bool) : ProcessingResult :=
  let fullText := title ++ "\n" ++ content
  if ok then
    { summary := summarizeNewsProcessor content summaryResp
      sentimentScore := (analyzeSentiment sentimentResp).1
      sentimentLabel := (analyzeSentiment sentimentResp).2
      keywords := extractKeywords fullText
      isControversial := (detectControversy controversyResp).1
      prosSummary := (detectControversy controversyResp).2.1
      consSummary := (detectControversy controversyResp).2.2
      mentionedCompanies := extractCompanies fullText }
  else
    { summary := if content ≠ "" then pyTake content 200 else title
      sentimentScore := 0
      sentimentLabel := "neutral"
      keywords := extractKeywords fullText
      isControversial := false
      prosSummary := none
      consSummary := none
      mentionedCompanies := extractCompanies fullText }

/-- Enriched, stored article as read by the personalization and digest
services (the dict shape produced by `_get_filtered_news`):
`published_at` is the isoformat timestamp string that the Python code
sorts on lexicographically; `categories` are the (id, name) pairs of the
article's category memberships. -/
structure Article where
  id : Nat
  title : String
  publishedAt : String
  isActive : Bool
  isProcessed : Bool
  isControversial : Bool
  mentionedCompanies : List String
  categories : List (Nat × String)
deriving Repr, DecidableEq

/-- Newest-first ordering on articles: the sort key relation of
`sorted(news_list, key=lambda x: x.get("published_at", ""), reverse=True)`
(non-strict, so a stable sort keeps the original order of ties, exactly as
Python's stable sort does). -/
def artGe (a b : Article) : Prop := pyStrLe b.publishedAt a.publishedAt = true

instance : DecidableRel artGe := fun a b =>
  Bool.decEq (pyStrLe b.publishedAt a.publishedAt) true

/-- Stable newest-first sort used by `_optimize_content` and the
`order_by(desc(News.published_at))` query. -/
def sortNewestFirst (l : List Article) : List Article :=
  List.insertionSort artGe l

/-- Personalized payload produced by
`PersonalizationService.get_personalized_news_for_user` (the dict returned
on success); groups are insertion-ordered association lists, as Python
dicts are. -/
structure PersonalizedData where
  userId : Nat
  totalNews : Nat
  newsByCategory : List (String × List Article)
  newsByCompany : List (String × List Article)
  controversialNews : List Article
deriving Repr, DecidableEq

/-- Group truncation of `ContentGenerator._optimize_content`: a group
longer than the bound is sorted newest-first and cut to the bound; a group
within the bound is left untouched. -/
def truncateGroup (bound : Nat) (l : List Article) : List Article :=
  if bound < l.length then (sortNewestFirst l).take bound else l

/-- Embedding of `ContentGenerator._optimize_content` (content_generator.py
lines 87-156): categories truncated to 3, companies to 2, controversial
items to 3, and `total_news` recomputed as the sum of the truncated
category-group sizes plus the truncated company-group sizes plus the
truncated controversial count (pre-truncation `total_news` is discarded). -/
def optimizeContent (d : PersonalizedData) : PersonalizedData :=
  let cats := d.newsByCategory.map (fun p => (p.1, truncateGroup 3 p.2))
  let comps := d.newsByCompany.map (fun p => (p.1, truncateGroup 2 p.2))
  let contr := truncateGroup 3 d.controversialNews
  { userId := d.userId
    totalNews := (cats.map (fun p => p.2.length)).sum +
      (comps.map (fun p => p.2.length)).sum + contr.length
    newsByCategory := cats
    newsByCompany := comps
    controversialNews := contr }

/-- Base row filter of `_get_filtered_news`: active, processed, published
within the window. -/
def baseFilter (startDate endDate : String) (a : Article) : Bool :=
  a.isActive && a.isProcessed &&
  pyStrLe startDate a.publishedAt && pyStrLe a.publishedAt endDate

/-- Embedding of `PersonalizationService._get_filtered_news`
(personalization.py lines 123-189): the base query, then an OR of the
optional category filter and the optional company filter (each added to
the `filters` list only when its subscription list is non-empty; when the
list of filters is empty the base query is returned unfiltered), then
newest-first ordering and the result cap. -/
def getFilteredNews (articles : List Article) (categoryIds : List Nat)
    (companyNames : List String) (startDate endDate : String)
    (limit : Nat) : List Article :=
  let base := articles.filter (baseFilter startDate endDate)
  let fs : List (Article → Bool) :=
    (if categoryIds.isEmpty then []
     else [fun a => a.categories.any (fun c => categoryIds.contains c.1)]) ++
    (if companyNames.isEmpty then []
     else [fun a => a.mentionedCompanies.any (fun m => companyNames.contains m)])
  let matched := if fs.isEmpty then base
    else base.filter (fun a => fs.any (fun f => f a))
  (sortNewestFirst matched).take limit

/-- Append a value to an insertion-ordered dict-of-lists, creating the key
at the end when absent (`if key not in result: result[key] = [];
result[key].append(news)`). -/
def appendEntry (m : List (String × List Article)) (key : String)
    (a : Article) : List (String × List Article) :=
  match m with
  | [] => [(key, [a])]
  | (k, l) :: rest =>
    if k == key then (k, l ++ [a]) :: rest
    else (k, l) :: appendEntry rest key a

/-- Embedding of `PersonalizationService._group_news_by_category`
(personalization.py lines 191-212): each article is appended under every
category name it belongs to. -/
def groupNewsByCategory (newsList : List Article) :
    List (String × List Article) :=
  newsList.foldl
    (fun acc news =>
      news.categories.foldl (fun acc c => appendEntry acc c.2 news) acc)
    []

/-- Dict assignment `result[company_name] = []`: reset the key's value to
the empty list, creating the key at the end when absent. -/
def setEntryEmpty : List (String × List Article) → String →
    List (String × List Article)
  | [], key => [(key, [])]
  | (k, l) :: rest, key =>
    if k == key then (k, []) :: rest else (k, l) :: setEntryEmpty rest key

/-- Per-article step of `_group_news_by_company`: append the article under
each of its mentioned companies that is subscribed. -/
def addArticleCompanies (companyNames : List String)
    (m : List (String × List Article)) (news : Article) :
    List (String × List Article) :=
  news.mentionedCompanies.foldl
    (fun m comp =>
      if companyNames.contains comp then appendEntry m comp news else m)
    m

/-- Embedding of `PersonalizationService._group_news_by_company`
(personalization.py lines 214-236): every subscribed company name is first
given an empty group, then each article is appended under each subscribed
company it mentions. -/
def groupNewsByCompany (newsList : List Article)
    (companyNames : List String) : List (String × List Article) :=
  newsList.foldl (addArticleCompanies companyNames)
    (companyNames.foldl setEntryEmpty [])

/-- Sample article used in concrete digest evaluations. -/
def sampleArticle (n : Nat) (day : String) (contr : Bool)
    (companies : List String) : Article :=
  { id := n
    title := "기사"
    publishedAt := day
    isActive := true
    isProcessed := true
    isControversial := contr
    mentionedCompanies := companies
    categories := [(1, "경제")] }

/-- Sample personalization payload with oversized groups, used as a
concrete input for digest truncation. -/
def sampleDigest : PersonalizedData :=
  { userId := 1
    totalNews := 99
    newsByCategory :=
      [("경제",
        [sampleArticle 1 "2024-01-01" false [],
         sampleArticle 2 "2024-01-02" false [],
         sampleArticle 3 "2024-01-03" false [],
         sampleArticle 4 "2024-01-04" false []])]
    newsByCompany :=
      [("삼성전자",
        [sampleArticle 1 "2024-01-01" false ["삼성전자"],
         sampleArticle 2 "2024-01-02" false ["삼성전자"],
         sampleArticle 3 "2024-01-03" false ["삼성전자"]])]
    controversialNews :=
      [sampleArticle 1 "2024-01-01" true [],
       sampleArticle 2 "2024-01-02" true [],
       sampleArticle 3 "2024-01-03" true [],
       sampleArticle 4 "2024-01-04" true []] }

/-- Embedding of `AIService._create_simple_summary` (ai_service.py lines
290-303): join the first THREE '.'-separated segments with ". ", strip,
truncate to 200 characters plus an ellipsis when longer, and fall back to
the first 200 characters plus an ellipsis when the joined text is
empty. -/
def createSimpleSummary (content : String) : String :=
  let sentences := (pySplit content '.').take 3
  let joined := pyStrip (pyJoin ". " sentences)
  let summary :=
    if 200 < pyLen joined then pyTake joined 200 ++ "..." else joined
  if summary ≠ "" then summary else pyTake content 200 ++ "..."

/-- Embedding of `AIService.summarize_news` (ai_service.py lines 95-138),
the provider chain with availability flags: Gemini's response is used when
non-empty and longer than 10 characters after stripping; otherwise OpenAI's
response is used whenever the call does not raise (`none` models a raise);
otherwise the deterministic `_create_simple_summary` fallback runs on the
content truncated to 3000 characters. -/
def summarizeNewsService (geminiAvailable openaiAvailable : Bool)
    (geminiResp openaiResp : Option String) (content : String) : String :=
  let contentPreview :=
    if 3000 < pyLen content then pyTake content 3000 else content
  let geminiResult : Option String :=
    if geminiAvailable then
      match geminiResp with
      | some r =>
        if r ≠ "" ∧ 10 < pyLen (pyStrip r) then some (pyStrip r) else none
      | none => none
    else none
  match geminiResult with
  | some s => s
  | none =>
    let openaiResult : Option String :=
      if openaiAvailable then
        match openaiResp with
        | some r => some (pyStrip r)
        | none => none
      else none
    match openaiResult with
    | some s => s
    | none => createSimpleSummary contentPreview

/-- Modelled from the spec: the per-job overlap guard is enforced by the
APScheduler runtime (its `max_instances` option defaults to 1), which is
not part of the repository source — `NewsScheduler.start` only registers
each job under a stable id (`news_crawling`, `email_sending`).  State of
one scheduled job id: the number of active runs and counters of skipped
triggers and completed runs.  There is deliberately no queue field: a
skipped trigger is discarded, matching "logged and skipped, not queued". -/
structure JobState where
  activeRuns : Nat
  skippedTriggers : Nat
  completedRuns : Nat
deriving Repr, DecidableEq

/-- Modelled from the spec: the two events a job id can receive — a
schedule trigger firing, and the active run finishing. -/
inductive JobEvent where
  | trigger
  | finish
deriving Repr, DecidableEq

/-- Modelled from the spec: one scheduler transition.  A trigger that
fires while a run is active is counted as skipped and changes nothing
else; otherwise it starts the (single) run.  A finish completes the
active run. -/
def jobStep (s : JobState) (e : JobEvent) : JobState :=
  match e with
  | .trigger =>
    if 1 ≤ s.activeRuns then
      { s with skippedTriggers := s.skippedTriggers + 1 }
    else { s with activeRuns := s.activeRuns + 1 }
  | .finish =>
    if 1 ≤ s.activeRuns then
      { s with activeRuns := s.activeRuns - 1,
               completedRuns := s.completedRuns + 1 }
    else s

/-- Modelled from the spec: the job state reached from idle after a
sequence of events. -/
def runJob (events : List JobEvent) : JobState :=
  events.foldl jobStep ⟨0, 0, 0⟩

/-- Result of `get_personalized_news_for_user`: either the error dict
(`{"error": ...}`) or the personalized payload. -/
inductive PersonalizedResult where
  | failure (msg : String)
  | payload (d : PersonalizedData)
deriving Repr, DecidableEq

/-- Embedding of `PersonalizationService.get_personalized_news_for_user`
(personalization.py lines 28-121): an unknown user yields the error dict;
otherwise the filtered news is grouped by category and by company, the
controversial subset is capped at 5, and `total_news` is the number of
filtered articles. -/
def getPersonalizedNewsForUser (userExists : Bool) (userId : Nat)
    (categoryIds : List Nat) (companyNames : List String)
    (articles : List Article) (startDate endDate : String)
    (limit : Nat) : PersonalizedResult :=
  if !userExists then .failure "사용자를 찾을 수 없습니다"
  else
    let news := getFilteredNews articles categoryIds companyNames
      startDate endDate limit
    .payload
      { userId := userId
        totalNews := news.length
        newsByCategory := groupNewsByCategory news
        newsByCompany := groupNewsByCompany news companyNames
        controversialNews := (news.filter (fun a => a.isControversial)).take 5 }

end NewsBite

namespace NewsBite

/-- Every item of the deduplicated batch has a normalized title outside the
seen set that the call started with. -/
theorem removeDuplicates_key_not_seen (xs : List NewsItem) (seen : List String) :
    ∀ y ∈ removeDuplicates xs seen, normTitle y.title ∉ seen := by
  induction xs generalizing seen with
  | nil => intro y hy; simp [removeDuplicates] at hy
  | cons x xs ih =>
    intro y hy
    simp only [removeDuplicates] at hy
    by_cases hx : normTitle x.title ∈ seen
    · rw [if_pos hx] at hy
      exact ih seen y hy
    · rw [if_neg hx] at hy
      rcases List.mem_cons.mp hy with h | h
      · subst h; exact hx
      · intro hc
        exact ih (normTitle x.title :: seen) y h (List.mem_cons_of_mem _ hc)

/-- The deduplicated batch has pairwise-distinct normalized titles,
whatever the starting seen set. -/
theorem removeDuplicates_pairwise (xs : List NewsItem) (seen : List String) :
    (removeDuplicates xs seen).Pairwise
      (fun a b => normTitle a.title ≠ normTitle b.title) := by
  induction xs generalizing seen with
  | nil => simp [removeDuplicates]
  | cons x xs ih =>
    simp only [removeDuplicates]
    by_cases hx : normTitle x.title ∈ seen
    · rw [if_pos hx]; exact ih seen
    · rw [if_neg hx]
      refine List.Pairwise.cons ?_ (ih (normTitle x.title :: seen))
      intro y hy heq
      exact removeDuplicates_key_not_seen xs (normTitle x.title :: seen) y hy
        (heq ▸ List.mem_cons_self _ _)

/-- C3 counterexample.  The claim says two batch Candidates with equal
canonical URLs are duplicates and the Deduplicator's output has
pairwise-distinct canonical URLs.  On the code
(`NewsScheduler._remove_duplicates`), deduplication consults only the
normalized title: two items sharing the URL "u" but with different titles
are BOTH kept, so the output's URLs are not pairwise distinct. -/
theorem c3_counterexample :
    removeDuplicates
        [{ title := "정부 발표", content := "", url := "u",
           source := "s", category := "c" },
         { title := "금리 인상", content := "", url := "u",
           source := "s", category := "c" }] [] =
      [{ title := "정부 발표", content := "", url := "u",
         source := "s", category := "c" },
       { title := "금리 인상", content := "", url := "u",
         source := "s", category := "c" }] ∧
    ¬ (removeDuplicates
        [{ title := "정부 발표", content := "", url := "u",
           source := "s", category := "c" },
         { title := "금리 인상", content := "", url := "u",
           source := "s", category := "c" }] []).Pairwise
        (fun a b => a.url ≠ b.url) := by
  constructor
  · decide
  · decide

/-- C3 amended.  Within one crawl batch the Deduplicator keeps the first
occurrence and drops later items whose normalized (lower-cased, trimmed)
title was already seen; URLs are never compared.  Hence the output has
pairwise-distinct normalized titles, and the documented trailing-whitespace
scenario (titles "정부 발표" and "정부 발표 ", different URLs) collapses to
the first item alone. -/
theorem c3_dedup_by_normalized_title_only :
    (∀ xs : List NewsItem,
      (removeDuplicates xs []).Pairwise
        (fun a b => normTitle a.title ≠ normTitle b.title)) ∧
    removeDuplicates
        [{ title := "정부 발표", content := "", url := "u1",
           source := "s", category := "c" },
         { title := "정부 발표 ", content := "", url := "u2",
           source := "s", category := "c" }] [] =
      [{ title := "정부 발표", content := "", url := "u1",
         source := "s", category := "c" }] := by
  refine ⟨fun xs => removeDuplicates_pairwise xs [], ?_⟩
  decide

/-- C4 counterexample.  The claim says a Candidate matching an existing
stored Article by canonical URL OR by normalized title is never
re-inserted.  On the code: `NewsCrawler.save_news_to_db` checks only
`source_url`, so a candidate with an identical title but a new URL IS
inserted (saved count 1); `NewsService.create_news_article` checks only the
exact title, so a candidate with an identical URL but a different
(here: trailing-whitespace) title IS inserted. -/
theorem c4_counterexample :
    (saveNewsToDb
        [{ title := "정부 발표", sourceName := "s", sourceUrl := "u2" }]
        [{ title := "정부 발표", sourceName := "s", sourceUrl := "u1",
           isProcessed := false, isActive := true }]).2 = 1 ∧
    (createNewsArticle
        { title := "정부 발표 ", content := "", url := "u1",
          source := "s", category := "c" }
        [{ title := "정부 발표", sourceName := "s", sourceUrl := "u1",
           isProcessed := false, isActive := true }]).2 = true := by
  exact ⟨rfl, rfl⟩

/-- C1 counterexample.  The claim quantifies over every sentiment analysis
of the enrichment pipeline, including `AIService.analyze_sentiment`.
There, a response `긍정적|5` parses to the unclamped score 5 > 1 (no
clamping is applied), and an unparsable response yields the default label
`중립적`, not `neutral`. -/
theorem c1_counterexample :
    ¬ ((aiServiceAnalyzeSentiment "긍정적|5").2 ≤ 1) ∧
    (aiServiceAnalyzeSentiment "hello").1 = "중립적" ∧
    (aiServiceAnalyzeSentiment "hello").1 ≠ "neutral" := by
  refine ⟨by decide, by decide, by decide⟩

/-- C1 amended.  For `AIProcessor.analyze_sentiment` (the `점수:`/`라벨:`
pattern) the claim holds: every returned score lies in [-1, 1] (clamped by
`max(-1.0, min(1.0, score))`), and whenever either field of the fixed
pattern fails to match, the result is exactly `(0.0, "neutral")`.  The
parallel `AIService.analyze_sentiment` does not clamp and defaults to
`(0.5, "중립적")` instead. -/
theorem c1_processor_sentiment_clamped (resp : Option String) :
    (-1 ≤ (analyzeSentiment resp).1 ∧ (analyzeSentiment resp).1 ≤ 1) ∧
    (∀ r, resp = some r →
      ((searchWith matchScoreAt r.data).isNone ∨
        (searchWith matchLabelAt r.data).isNone) →
      analyzeSentiment resp = (0, "neutral")) := by
  constructor
  · cases resp with
    | none => exact ⟨by norm_num [analyzeSentiment], by norm_num [analyzeSentiment]⟩
    | some r =>
      simp only [analyzeSentiment]
      cases hs : searchWith matchScoreAt r.data with
      | none => exact ⟨by norm_num, by norm_num⟩
      | some num =>
        cases hl : searchWith matchLabelAt r.data with
        | none => exact ⟨by norm_num, by norm_num⟩
        | some label =>
          exact ⟨le_max_left _ _, max_le (by norm_num) (min_le_left _ _)⟩
  · intro r hr hfail
    subst hr
    simp only [analyzeSentiment]
    rcases hfail with h | h
    · rw [Option.isNone_iff_eq_none] at h
      rw [h]
    · rw [Option.isNone_iff_eq_none] at h
      rw [h]
      cases searchWith matchScoreAt r.data <;> rfl

/-- C1 witness: the theorem applied at the unparsable response `hello`
gives the exact default, and at any response the score bounds. -/
theorem c1_witness :
    analyzeSentiment (some "hello") = (0, "neutral") ∧
    (-1 ≤ (analyzeSentiment (some "점수: 5 라벨: positive")).1 ∧
      (analyzeSentiment (some "점수: 5 라벨: positive")).1 ≤ 1) :=
  ⟨(c1_processor_sentiment_clamped (some "hello")).2 "hello" rfl
      (Or.inl (by decide)),
   (c1_processor_sentiment_clamped (some "점수: 5 라벨: positive")).1⟩

/-- C2 confirmed.  In `AIProcessor.detect_controversy` the pros/cons
summaries are only assigned under `if is_controversial:`, so a false flag
forces both to `None`; the same holds through `process_news`, whose
exception fallback returns `is_controversial=False` with both summaries
omitted (hence `None`). -/
theorem c2_controversy_false_forces_null :
    (∀ resp : Option String,
      (detectControversy resp).1 = false →
      (detectControversy resp).2.1 = none ∧ (detectControversy resp).2.2 = none) ∧
    (∀ title content summaryResp sentimentResp controversyResp ok,
      (processNews title content summaryResp sentimentResp controversyResp
          ok).isControversial = false →
      (processNews title content summaryResp sentimentResp controversyResp
          ok).prosSummary = none ∧
      (processNews title content summaryResp sentimentResp controversyResp
          ok).consSummary = none) := by
  have hd : ∀ resp : Option String,
      (detectControversy resp).1 = false →
      (detectControversy resp).2.1 = none ∧ (detectControversy resp).2.2 = none := by
    intro resp h
    cases resp with
    | none => exact ⟨rfl, rfl⟩
    | some r =>
      simp only [detectControversy] at h ⊢
      rw [h]
      exact ⟨rfl, rfl⟩
  refine ⟨hd, ?_⟩
  intro title content summaryResp sentimentResp controversyResp ok h
  cases ok with
  | false => exact ⟨rfl, rfl⟩
  | true =>
    simp only [processNews, if_true] at h ⊢
    exact hd controversyResp h

/-- C2 witness: the theorem applied to a provider response whose
controversy flag parses to false, and to the `process_news` exception
fallback. -/
theorem c2_witness :
    ((detectControversy
        (some "논쟁성: false\n찬성 의견: 좋다\n반대 의견: 나쁘다")).2.1 = none ∧
      (detectControversy
        (some "논쟁성: false\n찬성 의견: 좋다\n반대 의견: 나쁘다")).2.2 = none) ∧
    ((processNews "t" "c" none none none false).prosSummary = none ∧
      (processNews "t" "c" none none none false).consSummary = none) :=
  ⟨c2_controversy_false_forces_null.1
      (some "논쟁성: false\n찬성 의견: 좋다\n반대 의견: 나쁘다") (by decide),
   c2_controversy_false_forces_null.2 "t" "c" none none none false (by decide)⟩

/-- Each pair of the frequency-bump step either carries the bumped word or
was already present. -/
theorem bumpFreq_mem (l : List (String × Nat)) (w : String) (p : String × Nat)
    (hp : p ∈ bumpFreq l w) : p.1 = w ∨ p ∈ l := by
  induction l with
  | nil =>
    simp only [bumpFreq, List.mem_singleton] at hp
    left; rw [hp]
  | cons x rest ih =>
    obtain ⟨xk, xn⟩ := x
    simp only [bumpFreq] at hp
    by_cases hx : xk == w
    · rw [if_pos hx] at hp
      rcases List.mem_cons.mp hp with h | h
      · left; rw [h]; exact eq_of_beq hx
      · right; exact List.mem_cons_of_mem _ h
    · rw [if_neg hx] at hp
      rcases List.mem_cons.mp hp with h | h
      · right; rw [h]; exact List.mem_cons_self _ _
      · rcases ih h with h2 | h2
        · left; exact h2
        · right; exact List.mem_cons_of_mem _ h2

/-- Every key of the frequency table is one of the counted words. -/
theorem wordFreq_mem (ws : List String) (p : String × Nat)
    (hp : p ∈ wordFreq ws) : p.1 ∈ ws := by
  suffices h : ∀ (ws : List String) (acc : List (String × Nat)),
      p ∈ ws.foldl bumpFreq acc → p.1 ∈ ws ∨ p ∈ acc by
    rcases h ws [] hp with h2 | h2
    · exact h2
    · simp at h2
  intro ws
  induction ws with
  | nil => intro acc h; right; simpa using h
  | cons w rest ih =>
    intro acc h
    simp only [List.foldl_cons] at h
    rcases ih (bumpFreq acc w) h with h2 | h2
    · left; exact List.mem_cons_of_mem _ h2
    · rcases bumpFreq_mem acc w p h2 with h3 | h3
      · left; rw [h3]; exact List.mem_cons_self _ _
      · right; exact h3

/-- C8 confirmed.  `extract_keywords` is a pure function of the text: it
returns at most 5 words, each kept word is an alphanumeric-run token of
the text of length at least 2 and outside the fixed stop-word set, and the
ranked list it is cut from is sorted by frequency descending. -/
theorem c8_extract_keywords (text : String) :
    (extractKeywords text 5).length ≤ 5 ∧
    (∀ w ∈ extractKeywords text 5,
      2 ≤ pyLen w ∧ w ∉ stopwords ∧ w ∈ findWords text) ∧
    ((rankedKeywords text).take 5).Pairwise freqGe := by
  refine ⟨?_, ?_, ?_⟩
  · simp only [extractKeywords, List.length_map]
    exact List.length_take_le _ _
  · intro w hw
    simp only [extractKeywords, List.mem_map] at hw
    obtain ⟨p, hp, hpw⟩ := hw
    have hp2 : p ∈ rankedKeywords text :=
      (List.take_sublist _ _).mem hp
    have hp3 : p ∈ wordFreq (filteredWords text) :=
      (List.perm_insertionSort freqGe _).mem_iff.mp hp2
    have hp4 : p.1 ∈ filteredWords text := wordFreq_mem _ _ hp3
    rw [hpw] at hp4
    simp only [filteredWords, List.mem_filter, Bool.and_eq_true,
      decide_eq_true_eq, Bool.not_eq_true'] at hp4
    obtain ⟨hmem, hlen, hstop⟩ := hp4
    refine ⟨hlen, ?_, hmem⟩
    intro hc
    rw [List.contains_eq_any_beq] at hstop
    have : stopwords.any (fun x => w == x) = true :=
      List.any_eq_true.mpr ⟨w, hc, beq_self_eq_true w⟩
    rw [this] at hstop
    exact absurd hstop (by simp)
  · exact List.Pairwise.sublist (List.take_sublist _ _)
      (List.sorted_insertionSort freqGe _)

/-- C8 witness: on a concrete text the theorem yields the length bound and
the kept-word properties for the most frequent token. -/
theorem c8_witness :
    (extractKeywords "삼성전자 실적 발표 삼성전자 영업이익 증가" 5).length ≤ 5 ∧
    (2 ≤ pyLen "삼성전자" ∧ "삼성전자" ∉ stopwords ∧
      "삼성전자" ∈ findWords "삼성전자 실적 발표 삼성전자 영업이익 증가") :=
  ⟨(c8_extract_keywords "삼성전자 실적 발표 삼성전자 영업이익 증가").1,
   (c8_extract_keywords "삼성전자 실적 발표 삼성전자 영업이익 증가").2.1
      "삼성전자" (by decide)⟩

/-- C4 amended.  Each storage-insertion path applies a single duplicate
rule: the crawler's `save_news_to_db` skips a candidate exactly when some
stored row has the same `source_url`, and `NewsService.create_news_article`
skips exactly when some stored row has the very same (unnormalized) title.
Neither path combines the two rules. -/
theorem c4_single_key_insertion (db : List StoredNews) (item : CrawlItem)
    (item2 : NewsItem) :
    ((saveNewsToDb [item] db).2 = 0 ↔ ∃ n ∈ db, n.sourceUrl = item.sourceUrl) ∧
    ((createNewsArticle item2 db).2 = false ↔ ∃ n ∈ db, n.title = item2.title) := by
  constructor
  · simp only [saveNewsToDb, List.foldl]
    by_cases h : db.any (fun n => n.sourceUrl == item.sourceUrl)
    · rw [if_pos h]
      simp only [List.any_eq_true, beq_iff_eq] at h
      simpa using h
    · rw [if_neg h]
      simp only [List.any_eq_true, beq_iff_eq] at h
      simpa using h
  · unfold createNewsArticle
    by_cases h : db.any (fun n => n.title == item2.title)
    · rw [if_pos h]
      simp only [List.any_eq_true, beq_iff_eq] at h
      simpa using h
    · rw [if_neg h]
      simp only [List.any_eq_true, beq_iff_eq] at h
      simpa using h

/-- Lexicographic comparison is total. -/
theorem listLexLe_total : ∀ x y : List Char,
    listLexLe x y = true ∨ listLexLe y x = true := by
  intro x
  induction x with
  | nil => intro y; left; rfl
  | cons c cs ih =>
    intro y
    cases y with
    | nil => right; rfl
    | cons d ds =>
      simp only [listLexLe]
      rcases Nat.lt_trichotomy c.toNat d.toNat with h1 | h1 | h1
      · left; rw [if_pos h1]
      · rw [if_neg (by omega), if_neg (by omega), if_neg (by omega),
          if_neg (by omega)]
        exact ih ds
      · right; rw [if_pos h1]

/-- Lexicographic comparison is transitive. -/
theorem listLexLe_trans : ∀ x y z : List Char,
    listLexLe x y = true → listLexLe y z = true → listLexLe x z = true := by
  intro x
  induction x with
  | nil => intro y z _ _; rfl
  | cons c cs ih =>
    intro y z hxy hyz
    cases y with
    | nil => simp [listLexLe] at hxy
    | cons d ds =>
      cases z with
      | nil => simp [listLexLe] at hyz
      | cons e es =>
        simp only [listLexLe] at hxy hyz ⊢
        by_cases h1 : c.toNat < d.toNat
        · by_cases h2 : d.toNat < e.toNat
          · rw [if_pos (by omega)]
          · rw [if_neg h2] at hyz
            by_cases h3 : e.toNat < d.toNat
            · rw [if_pos h3] at hyz; simp at hyz
            · rw [if_pos (by omega)]
        · rw [if_neg h1] at hxy
          by_cases h4 : d.toNat < c.toNat
          · rw [if_pos h4] at hxy; simp at hxy
          · rw [if_neg h4] at hxy
            by_cases h2 : d.toNat < e.toNat
            · rw [if_pos (by omega)]
            · rw [if_neg h2] at hyz
              by_cases h5 : e.toNat < d.toNat
              · rw [if_pos h5] at hyz; simp at hyz
              · rw [if_neg h5] at hyz
                rw [if_neg (by omega), if_neg (by omega)]
                exact ih ds es hxy hyz

/-- The newest-first article relation is total. -/
theorem artGe_total : ∀ a b : Article, artGe a b ∨ artGe b a := by
  intro a b
  exact listLexLe_total b.publishedAt.data a.publishedAt.data

/-- The newest-first article relation is transitive. -/
theorem artGe_trans : ∀ a b c : Article, artGe a b → artGe b c → artGe a c := by
  intro a b c hab hbc
  exact listLexLe_trans c.publishedAt.data b.publishedAt.data
    a.publishedAt.data hbc hab

/-- Group truncation never exceeds its bound. -/
theorem truncateGroup_length_le (bound : Nat) (l : List Article) :
    (truncateGroup bound l).length ≤ bound := by
  unfold truncateGroup
  by_cases h : bound < l.length
  · rw [if_pos h]; exact List.length_take_le _ _
  · rw [if_neg h]; exact Nat.le_of_not_lt h

/-- C5 confirmed.  After `_optimize_content`, every category group has at
most 3 articles, every company group at most 2, the controversial list at
most 3; `total_news` equals the sum of the truncated group sizes plus the
truncated controversial count, computed from the truncated groups (the
incoming `total_news` is ignored); and a group above its bound is cut to a
prefix of its stable newest-first ordering, so the kept articles are the
most recent ones. -/
theorem c5_digest_truncation (d : PersonalizedData) :
    (∀ p ∈ (optimizeContent d).newsByCategory, p.2.length ≤ 3) ∧
    (∀ p ∈ (optimizeContent d).newsByCompany, p.2.length ≤ 2) ∧
    (optimizeContent d).controversialNews.length ≤ 3 ∧
    (optimizeContent d).totalNews =
      ((optimizeContent d).newsByCategory.map (fun p => p.2.length)).sum +
      ((optimizeContent d).newsByCompany.map (fun p => p.2.length)).sum +
      (optimizeContent d).controversialNews.length ∧
    (∀ n, optimizeContent { d with totalNews := n } = optimizeContent d) ∧
    (∀ (l : List Article) (bound : Nat),
      (sortNewestFirst l).Perm l ∧ List.Sorted artGe (sortNewestFirst l) ∧
      (bound < l.length →
        truncateGroup bound l = (sortNewestFirst l).take bound)) := by
  haveI : IsTotal Article artGe := ⟨artGe_total⟩
  haveI : IsTrans Article artGe := ⟨artGe_trans⟩
  refine ⟨?_, ?_, ?_, rfl, fun n => rfl, ?_⟩
  · intro p hp
    simp only [optimizeContent, List.mem_map] at hp
    obtain ⟨q, _, hq⟩ := hp
    rw [← hq]
    exact truncateGroup_length_le 3 q.2
  · intro p hp
    simp only [optimizeContent, List.mem_map] at hp
    obtain ⟨q, _, hq⟩ := hp
    rw [← hq]
    exact truncateGroup_length_le 2 q.2
  · exact truncateGroup_length_le 3 d.controversialNews
  · intro l bound
    refine ⟨List.perm_insertionSort artGe l,
      List.sorted_insertionSort artGe l, ?_⟩
    intro h
    unfold truncateGroup
    rw [if_pos h]

/-- C5 witness: the theorem applied to a concrete oversized payload, with
the truncation hypothesis discharged on its 4-element controversial
list. -/
theorem c5_witness :
    (optimizeContent sampleDigest).controversialNews.length ≤ 3 ∧
    (optimizeContent sampleDigest).totalNews =
      ((optimizeContent sampleDigest).newsByCategory.map
          (fun p => p.2.length)).sum +
      ((optimizeContent sampleDigest).newsByCompany.map
          (fun p => p.2.length)).sum +
      (optimizeContent sampleDigest).controversialNews.length ∧
    truncateGroup 3 sampleDigest.controversialNews =
      (sortNewestFirst sampleDigest.controversialNews).take 3 :=
  ⟨(c5_digest_truncation sampleDigest).2.2.1,
   (c5_digest_truncation sampleDigest).2.2.2.1,
   ((c5_digest_truncation sampleDigest).2.2.2.2.2
      sampleDigest.controversialNews 3).2.2 (by decide)⟩

/-- C7 confirmed.  For an existing subscriber with no active category and
no active company subscriptions, when no stored article passes the base
filter, the personalization result is the explicit payload with
`total_news = 0` and empty groups — not the error dict. -/
theorem c7_no_content_is_not_error (userId : Nat) (articles : List Article)
    (startDate endDate : String) (limit : Nat)
    (hnone : ∀ a ∈ articles, baseFilter startDate endDate a = false) :
    getPersonalizedNewsForUser true userId [] [] articles
        startDate endDate limit =
      .payload { userId := userId, totalNews := 0, newsByCategory := [],
                 newsByCompany := [], controversialNews := [] } := by
  have hfilter : articles.filter (baseFilter startDate endDate) = [] :=
    List.filter_eq_nil_iff.mpr (by simpa using hnone)
  simp [getPersonalizedNewsForUser, getFilteredNews, hfilter, sortNewestFirst,
    groupNewsByCategory, groupNewsByCompany]

/-- C7 witness: one inactive stored article, empty subscriptions — the
result is the explicit empty payload. -/
theorem c7_witness :
    getPersonalizedNewsForUser true 7 [] []
        [{ id := 1, title := "기사", publishedAt := "2024-01-01",
           isActive := false, isProcessed := true, isControversial := false,
           mentionedCompanies := [], categories := [] }]
        "2024-01-01" "2024-01-02" 20 =
      .payload { userId := 7, totalNews := 0, newsByCategory := [],
                 newsByCompany := [], controversialNews := [] } :=
  c7_no_content_is_not_error 7 _ "2024-01-01" "2024-01-02" 20 (by decide)

/-- Lookup after resetting a key to the empty list: the reset key maps to
`[]`. -/
theorem lookup_setEntryEmpty_self (m : List (String × List Article))
    (key : String) : (setEntryEmpty m key).lookup key = some [] := by
  induction m with
  | nil => simp [setEntryEmpty, List.lookup]
  | cons x rest ih =>
    obtain ⟨k, l⟩ := x
    simp only [setEntryEmpty]
    by_cases h : k = key
    · subst h
      simp [List.lookup]
    · rw [if_neg (by simpa using h)]
      have hb : (key == k) = false := by simpa using Ne.symm h
      simp only [List.lookup, hb]
      exact ih

/-- Lookup after resetting a different key is unchanged. -/
theorem lookup_setEntryEmpty_ne (m : List (String × List Article))
    (key c : String) (h : c ≠ key) :
    (setEntryEmpty m key).lookup c = m.lookup c := by
  have hbk : (c == key) = false := by simpa using h
  induction m with
  | nil => simp [setEntryEmpty, List.lookup, hbk]
  | cons x rest ih =>
    obtain ⟨k, l⟩ := x
    simp only [setEntryEmpty]
    by_cases hk : k = key
    · subst hk
      rw [if_pos (beq_self_eq_true k)]
      simp only [List.lookup, hbk]
    · rw [if_neg (by simpa using hk)]
      by_cases hc : c = k
      · subst hc
        simp [List.lookup]
      · have hb : (c == k) = false := by simpa using hc
        simp only [List.lookup, hb]
        exact ih

/-- After initializing every subscribed company, each of them maps to the
empty group. -/
theorem lookup_initCompanies (names : List String)
    (m : List (String × List Article)) (c : String)
    (h : c ∈ names ∨ m.lookup c = some []) :
    (names.foldl setEntryEmpty m).lookup c = some [] := by
  induction names generalizing m with
  | nil =>
    rcases h with h | h
    · simp at h
    · simpa using h
  | cons n rest ih =>
    simp only [List.foldl_cons]
    by_cases hc : c = n
    · subst hc
      by_cases hr : c ∈ rest
      · exact ih _ (Or.inl hr)
      · exact ih _ (Or.inr (lookup_setEntryEmpty_self m c))
    · rcases h with h | h
      · rcases List.mem_cons.mp h with h2 | h2
        · exact absurd h2 hc
        · exact ih _ (Or.inl h2)
      · exact ih _ (Or.inr ((lookup_setEntryEmpty_ne m n c hc).trans h))

/-- Appending under a different key leaves a lookup unchanged. -/
theorem lookup_appendEntry_ne (m : List (String × List Article))
    (key c : String) (a : Article) (h : c ≠ key) :
    (appendEntry m key a).lookup c = m.lookup c := by
  have hbk : (c == key) = false := by simpa using h
  induction m with
  | nil => simp [appendEntry, List.lookup, hbk]
  | cons x rest ih =>
    obtain ⟨k, l⟩ := x
    simp only [appendEntry]
    by_cases hk : k = key
    · subst hk
      rw [if_pos (beq_self_eq_true k)]
      simp only [List.lookup, hbk]
    · rw [if_neg (by simpa using hk)]
      by_cases hc : c = k
      · subst hc
        simp [List.lookup]
      · have hb : (c == k) = false := by simpa using hc
        simp only [List.lookup, hb]
        exact ih

/-- Appending preserves key presence. -/
theorem lookup_appendEntry_isSome (m : List (String × List Article))
    (key c : String) (a : Article)
    (h : (m.lookup c).isSome) :
    ((appendEntry m key a).lookup c).isSome := by
  induction m with
  | nil => simp [List.lookup] at h
  | cons x rest ih =>
    obtain ⟨k, l⟩ := x
    by_cases hk : k = key
    · subst hk
      simp only [appendEntry, if_pos (beq_self_eq_true k)]
      by_cases hc : c = k
      · simp [List.lookup, hc]
      · simp only [List.lookup] at h ⊢
        rw [show (c == k) = false by simpa using hc] at h ⊢
        exact h
    · simp only [appendEntry]
      rw [if_neg (by simpa using hk)]
      by_cases hc : c = k
      · simp [List.lookup, hc]
      · simp only [List.lookup] at h ⊢
        rw [show (c == k) = false by simpa using hc] at h ⊢
        exact ih h

/-- The per-article company step preserves key presence. -/
theorem addArticleCompanies_isSome (names : List String) (news : Article)
    (m : List (String × List Article)) (c : String)
    (h : (m.lookup c).isSome) :
    ((addArticleCompanies names m news).lookup c).isSome := by
  unfold addArticleCompanies
  generalize news.mentionedCompanies = comps
  induction comps generalizing m with
  | nil => simpa using h
  | cons x rest ih =>
    simp only [List.foldl_cons]
    by_cases hx : names.contains x
    · rw [if_pos hx]
      exact ih _ (lookup_appendEntry_isSome m x c news h)
    · rw [if_neg hx]
      exact ih _ h

/-- The per-article company step does not touch a company the article does
not mention. -/
theorem addArticleCompanies_not_mentioned (names : List String)
    (news : Article) (m : List (String × List Article)) (c : String)
    (h : c ∉ news.mentionedCompanies) :
    (addArticleCompanies names m news).lookup c = m.lookup c := by
  unfold addArticleCompanies
  revert h
  generalize news.mentionedCompanies = comps
  intro h
  induction comps generalizing m with
  | nil => simp
  | cons x rest ih =>
    simp only [List.foldl_cons]
    have hx : c ≠ x := fun hc => h (hc ▸ List.mem_cons_self _ _)
    have hr : c ∉ rest := fun hc => h (List.mem_cons_of_mem _ hc)
    by_cases hm : names.contains x
    · rw [if_pos hm]
      rw [ih _ hr, lookup_appendEntry_ne m x c news hx]
    · rw [if_neg hm]
      exact ih _ hr

/-- Key presence survives the whole company-grouping fold. -/
theorem groupFold_isSome (names : List String) (c : String) :
    ∀ (newsList : List Article) (m : List (String × List Article)),
    (m.lookup c).isSome →
    ((newsList.foldl (addArticleCompanies names) m).lookup c).isSome := by
  intro newsList
  induction newsList with
  | nil => intro m hm; simpa using hm
  | cons a rest ih =>
    intro m hm
    simp only [List.foldl_cons]
    exact ih _ (addArticleCompanies_isSome names a m c hm)

/-- A company mentioned by no article keeps its value across the whole
grouping fold. -/
theorem groupFold_not_mentioned (names : List String) (c : String) :
    ∀ (newsList : List Article) (m : List (String × List Article)),
    (∀ a ∈ newsList, c ∉ a.mentionedCompanies) → m.lookup c = some [] →
    ((newsList.foldl (addArticleCompanies names) m).lookup c) = some [] := by
  intro newsList
  induction newsList with
  | nil => intro m _ hm; simpa using hm
  | cons a rest ih =>
    intro m hnm hm
    simp only [List.foldl_cons]
    exact ih _ (fun x hx => hnm x (List.mem_cons_of_mem _ hx))
      ((addArticleCompanies_not_mentioned names a m c
        (hnm a (List.mem_cons_self _ _))).trans hm)

/-- C10 confirmed.  `_group_news_by_company` pre-creates one (empty) group
per subscribed company, so every subscribed company name is a key of the
returned mapping, and a subscribed company mentioned by no matched article
keeps its explicit empty group. -/
theorem c10_company_groups_keep_empty (newsList : List Article)
    (names : List String) :
    (∀ c ∈ names, ((groupNewsByCompany newsList names).lookup c).isSome) ∧
    (∀ c ∈ names, (∀ a ∈ newsList, c ∉ a.mentionedCompanies) →
      (groupNewsByCompany newsList names).lookup c = some []) := by
  constructor
  · intro c hc
    unfold groupNewsByCompany
    refine groupFold_isSome names c newsList _ ?_
    rw [lookup_initCompanies names [] c (Or.inl hc)]
    rfl
  · intro c hc hnm
    unfold groupNewsByCompany
    exact groupFold_not_mentioned names c newsList _ hnm
      (lookup_initCompanies names [] c (Or.inl hc))

/-- C6 counterexample.  The claim says the deterministic fallback extracts
exactly the first TWO sentences.  In the provider-chain implementation
(`AIService.summarize_news`), when Gemini returns an empty response and
OpenAI raises, the fallback `_create_simple_summary` joins the first THREE
'.'-separated sentences, so the result differs from the two-sentence
extraction (which only `AIProcessor.summarize_news`'s exception path
performs). -/
theorem c6_counterexample :
    summarizeNewsService true true (some "") none
        "가나다. 라마바. 사아자. 차카타." = "가나다.  라마바.  사아자" ∧
    "가나다.  라마바.  사아자" ≠
      firstTwoSentences "가나다. 라마바. 사아자. 차카타." := by
  exact ⟨by decide, by decide⟩

/-- Length of an appended string is the sum of the lengths. -/
theorem pyLen_append (a b : String) : pyLen (a ++ b) = pyLen a + pyLen b := by
  simp [pyLen]

/-- A Python slice `s[:n]` has at most `n` characters. -/
theorem pyLen_pyTake_le (s : String) (n : Nat) : pyLen (pyTake s n) ≤ n :=
  List.length_take_le _ _

/-- Bound for the summary shape of `_create_simple_summary`, for any
joined sentence text `j` and content `c`. -/
theorem summaryShape_length_le (j c : String) :
    pyLen (if (if 200 < pyLen j then pyTake j 200 ++ "..." else j) ≠ ""
           then (if 200 < pyLen j then pyTake j 200 ++ "..." else j)
           else pyTake c 200 ++ "...") ≤ 203 := by
  have hdots : pyLen "..." = 3 := rfl
  by_cases h : 200 < pyLen j
  · rw [if_pos h]
    have hne : pyTake j 200 ++ "..." ≠ "" := by
      intro hc
      have h0 : pyLen (pyTake j 200 ++ "...") = 0 := by rw [hc]; rfl
      rw [pyLen_append] at h0
      omega
    rw [if_pos hne, pyLen_append]
    have := pyLen_pyTake_le j 200
    omega
  · rw [if_neg h]
    by_cases h2 : j ≠ ""
    · rw [if_pos h2]
      omega
    · rw [if_neg h2, pyLen_append]
      have := pyLen_pyTake_le c 200
      omega

/-- The simple-summary fallback never exceeds 203 characters (200 plus the
ellipsis). -/
theorem createSimpleSummary_length_le (content : String) :
    pyLen (createSimpleSummary content) ≤ 203 :=
  summaryShape_length_le
    (pyStrip (pyJoin ". " ((pySplit content '.').take 3))) content

/-- C6 amended.  When the primary provider's response is empty or at most
10 characters after stripping and the secondary provider raises, the
returned summary is exactly the deterministic
`_create_simple_summary` fallback applied to the (at most 3000-character)
content preview: the first THREE '.'-sentences joined and capped at 200
characters plus an ellipsis, hence at most 203 characters.  The
two-sentence extraction exists only in `AIProcessor.summarize_news`'s
exception path. -/
theorem c6_fallback_is_simple_summary (content : String)
    (geminiResp openaiResp : Option String)
    (hg : ∀ r, geminiResp = some r → r = "" ∨ pyLen (pyStrip r) ≤ 10)
    (ho : openaiResp = none) :
    summarizeNewsService true true geminiResp openaiResp content =
      createSimpleSummary
        (if 3000 < pyLen content then pyTake content 3000 else content) ∧
    pyLen (summarizeNewsService true true geminiResp openaiResp content)
      ≤ 203 := by
  subst ho
  have hmain : summarizeNewsService true true geminiResp none content =
      createSimpleSummary
        (if 3000 < pyLen content then pyTake content 3000 else content) := by
    cases geminiResp with
    | none => rfl
    | some r =>
      rcases hg r rfl with h | h
      · subst h
        rfl
      · have hcond : ¬(r ≠ "" ∧ 10 < pyLen (pyStrip r)) :=
          fun hc => absurd hc.2 (Nat.not_lt.mpr h)
        simp only [summarizeNewsService, if_neg hcond]
        rfl
  exact ⟨hmain, hmain ▸ createSimpleSummary_length_le _⟩

/-- C6 witness: the theorem applied with an empty Gemini response and a
raising OpenAI call on a concrete article body. -/
theorem c6_witness :
    summarizeNewsService true true (some "") none
        "가나다. 라마바. 사아자. 차카타." =
      createSimpleSummary
        (if 3000 < pyLen "가나다. 라마바. 사아자. 차카타."
         then pyTake "가나다. 라마바. 사아자. 차카타." 3000
         else "가나다. 라마바. 사아자. 차카타.") ∧
    pyLen (summarizeNewsService true true (some "") none
        "가나다. 라마바. 사아자. 차카타.") ≤ 203 :=
  c6_fallback_is_simple_summary "가나다. 라마바. 사아자. 차카타."
    (some "") none (fun r hr => by cases hr; left; rfl) rfl

/-- A scheduler step keeps at most one active run. -/
theorem jobStep_active_le (s : JobState) (e : JobEvent)
    (h : s.activeRuns ≤ 1) : (jobStep s e).activeRuns ≤ 1 := by
  cases e with
  | trigger =>
    simp only [jobStep]
    by_cases h1 : 1 ≤ s.activeRuns
    · rw [if_pos h1]; exact h
    · rw [if_neg h1]
      show s.activeRuns + 1 ≤ 1
      omega
  | finish =>
    simp only [jobStep]
    by_cases h1 : 1 ≤ s.activeRuns
    · rw [if_pos h1]
      show s.activeRuns - 1 ≤ 1
      omega
    · rw [if_neg h1]; exact h

/-- C9 confirmed (spec-modelled).  Under the modelled scheduler semantics,
a job id never has more than one active run after any event sequence; a
trigger that fires while a run is active only increments the skipped
counter (discarded — since the state has no queue, nothing is queued); and
the documented overlap scenario (two triggers, no finish) ends with
exactly one active run and one skipped trigger. -/
theorem c9_no_overlapping_runs :
    (∀ events : List JobEvent, (runJob events).activeRuns ≤ 1) ∧
    (∀ s : JobState, s.activeRuns = 1 →
      jobStep s .trigger =
        { s with skippedTriggers := s.skippedTriggers + 1 }) ∧
    runJob [.trigger, .trigger] = ⟨1, 1, 0⟩ := by
  refine ⟨?_, ?_, rfl⟩
  · intro events
    unfold runJob
    have h : ∀ (evs : List JobEvent) (s : JobState), s.activeRuns ≤ 1 →
        (evs.foldl jobStep s).activeRuns ≤ 1 := by
      intro evs
      induction evs with
      | nil => intro s hs; simpa using hs
      | cons e rest ih =>
        intro s hs
        simp only [List.foldl_cons]
        exact ih _ (jobStep_active_le s e hs)
    exact h events ⟨0, 0, 0⟩ (Nat.zero_le 1)
  · intro s hs
    simp only [jobStep]
    rw [if_pos (by omega)]

/-- C9 witness: the theorem applied to the double-trigger scenario and to
a state with one active run. -/
theorem c9_witness :
    (runJob [.trigger, .trigger]).activeRuns ≤ 1 ∧
    jobStep ⟨1, 5, 2⟩ .trigger = ⟨1, 6, 2⟩ :=
  ⟨c9_no_overlapping_runs.1 [.trigger, .trigger],
   c9_no_overlapping_runs.2.1 ⟨1, 5, 2⟩ rfl⟩

/-- C10 witness: with subscriptions to two companies and one matched
article mentioning only the first, the second company's group is present
and empty. -/
theorem c10_witness :
    ((groupNewsByCompany [sampleArticle 1 "2024-01-01" false ["삼성전자"]]
        ["삼성전자", "카카오"]).lookup "삼성전자").isSome ∧
    (groupNewsByCompany [sampleArticle 1 "2024-01-01" false ["삼성전자"]]
        ["삼성전자", "카카오"]).lookup "카카오" = some [] :=
  ⟨(c10_company_groups_keep_empty _ _).1 "삼성전자" (by decide),
   (c10_company_groups_keep_empty _ _).2 "카카오" (by decide) (by decide)⟩

end NewsBite
